import Mathlib

/-!
Shallow embedding of the content-integrity fetch engine of
junco-launcher/utils (src/http/mod.rs) and of the path expansion helper
it calls (src/filesystem/mod.rs, expand_home).

Modelling conventions:
* Bytes are `Fin 256`; file and body contents are `List Byte`.
* The SHA-1 / SHA-256 / SHA-512 primitives live in external crates, not in
  this repository; they are abstracted as a bundle `HashAlgs` of pure digest
  functions.  A hasher's incremental state is the list of bytes fed so far,
  matching the documented streaming contract of the Digest trait.
* I/O is made explicit: the filesystem is a map from paths to file states,
  the network response is a status plus a list of body-chunk results, and
  `download_to_file` returns its result together with its observable
  effects (number of GET requests, whether the destination was opened for
  writing, the destination's final state, the path actually used).
-/

abbrev Byte := Fin 256

/-- Lowercase hexadecimal digit for a value below 16, as produced by the
hex crate (0-9 then a-f). -/
def hexDigit (n : Nat) : Char :=
  if n < 10 then Char.ofNat (48 + n) else Char.ofNat (87 + n)

/-- Model of hex::encode: each byte becomes two lowercase hex characters,
high nibble first. -/
def hexEncode (bs : List Byte) : String :=
  String.mk (bs.foldr (fun b acc => hexDigit (b.val / 16) :: hexDigit (b.val % 16) :: acc) [])

/-- The digest primitives supplied by the sha1 / sha2 crates, abstracted as
pure functions from the full input byte sequence to the digest bytes. -/
structure HashAlgs where
  sha1 : List Byte → List Byte
  sha256 : List Byte → List Byte
  sha512 : List Byte → List Byte

/-- Model of HasherEnum (src/http/mod.rs).  An active variant carries the
bytes fed so far; the digest function is applied at finalize time. -/
inductive HasherEnum where
  | sha1 (acc : List Byte)
  | sha256 (acc : List Byte)
  | sha512 (acc : List Byte)
  | none
deriving DecidableEq, Repr

/-- Model of HasherEnum::update: feed a chunk into the accumulator; the
None variant ignores its input. -/
def HasherEnum.update : HasherEnum → List Byte → HasherEnum
  | .sha1 a, d => .sha1 (a ++ d)
  | .sha256 a, d => .sha256 (a ++ d)
  | .sha512 a, d => .sha512 (a ++ d)
  | .none, _ => .none

/-- Model of HasherEnum::finalize: apply the selected digest function to the
accumulated bytes; the None variant yields the empty byte sequence. -/
def HasherEnum.finalize (A : HashAlgs) : HasherEnum → List Byte
  | .sha1 a => A.sha1 a
  | .sha256 a => A.sha256 a
  | .sha512 a => A.sha512 a
  | .none => []

/-- The length-to-algorithm match in verify_hash (match expected.len()). -/
def verifySelect (expected : String) : HasherEnum :=
  match expected.length with
  | 40 => .sha1 []
  | 64 => .sha256 []
  | 128 => .sha512 []
  | _ => .none

/-- The length-to-algorithm match in download_to_file (match expected_hash
with Some-guards on h.len()). -/
def downloadSelect : Option String → HasherEnum
  | some h =>
      if h.length = 40 then .sha1 []
      else if h.length = 64 then .sha256 []
      else if h.length = 128 then .sha512 []
      else .none
  | none => .none

/-- The read loop of verify_hash: reads the file in chunks of at most 8192
bytes, feeding each chunk to the hasher, until end of file.  The fuel
argument only bounds the number of iterations so the recursion is
structural; verify_hash passes enough fuel for the whole file. -/
def readLoop : Nat → HasherEnum → List Byte → HasherEnum
  | 0, h, _ => h
  | n + 1, h, content =>
      if content.isEmpty then h
      else readLoop n (h.update (content.take 8192)) (content.drop 8192)

/-- Model of verify_hash on a file whose content was read successfully:
select the hasher from the expected string's length, stream the content
through it in 8192-byte chunks, hex-encode the finalized digest and compare
for exact string equality. -/
def verify_hash (A : HashAlgs) (content : List Byte) (expected : String) : Bool :=
  hexEncode ((readLoop (content.length + 1) (verifySelect expected) content).finalize A) == expected

/-- Model of verify_hash including the fallible File::open / read: an
unreadable file propagates its I/O error, a readable one yields the boolean
comparison result. -/
def verify_hash_io (A : HashAlgs) (file : Except String (List Byte)) (expected : String) :
    Except String Bool :=
  match file with
  | .error e => .error e
  | .ok content => .ok (verify_hash A content expected)

/-- Prefix test on strings by their character lists (model of
str::starts_with; kernel-reducible unlike the byte-position-based core
function). -/
def strStartsWith (s pre : String) : Bool :=
  pre.data.isPrefixOf s.data

/-- Drop the first n characters of a string (model of byte slicing
&s[n..] on ASCII strings). -/
def strDrop (s : String) (n : Nat) : String :=
  String.mk (s.data.drop n)

/-- Character-wise ASCII uppercasing of a string, used to state the
uppercase-digest property. -/
def strUpper (s : String) : String :=
  String.mk (s.data.map fun c =>
    if 97 ≤ c.toNat ∧ c.toNat ≤ 122 then Char.ofNat (c.toNat - 32) else c)

/-- Model of filesystem::expand_home.  PathBuf is modelled as a string,
PathBuf::new() as the empty string and Path::join as separator
concatenation; the home directory (dirs::home_dir) is a parameter. -/
def expand_home (home : Option String) (path : String) : String :=
  if path = "" then ""
  else if !strStartsWith path "~" then path
  else
    match home with
    | Option.none => ""
    | some h =>
        if path = "~" then h
        else if strStartsWith path "~/" || strStartsWith path "~\\" then
          h ++ "/" ++ strDrop path 2
        else ""

/-- An HTTP response: status code plus the body as the sequence of chunk
results delivered by bytes_stream (a chunk is either bytes or a transport
error). -/
structure Response where
  status : Nat
  chunks : List (Except String (List Byte))

/-- Model of reqwest StatusCode::is_success: 2xx. -/
def statusIsSuccess (s : Nat) : Bool :=
  200 ≤ s && s < 300

/-- The environment a single download_to_file call runs in: the home
directory, the filesystem (a path maps to nothing when absent, to an I/O
error when present but unreadable, or to its content), the outcome of
creating the parent directories, the outcome of File::create, and the
network's answer to the one possible GET. -/
structure Env where
  home : Option String
  fs : String → Option (Except String (List Byte))
  mkdirOk : Except String Unit
  createOk : Except String Unit
  response : Except String Response

/-- The observable outcome of a download_to_file call: its io::Result, how
many GET requests were issued, whether File::create was called on the
destination, the destination's final file state, and the path the function
actually operated on. -/
structure DLOutcome where
  result : Except String Unit
  requests : Nat
  fileCreated : Bool
  finalContent : Option (Except String (List Byte))
  pathUsed : String
deriving Repr

/-- The body-consumption loop of download_to_file: for each chunk, append
it to the destination file and feed it to the hasher; a transport error
aborts, leaving the bytes written so far in place. -/
def streamLoop : List (Except String (List Byte)) → HasherEnum → List Byte →
    Except String HasherEnum × List Byte
  | [], h, written => (.ok h, written)
  | .error e :: _, _, written => (.error e, written)
  | .ok c :: rest, h, written => streamLoop rest (h.update c) (written ++ c)

/-- The skip rule at the top of download_to_file: returns some result when
the call ends without touching the network (success, or a propagated
verify_hash I/O error), and none when it falls through to the fetch. -/
def skipCheck (A : HashAlgs) (existing : Option (Except String (List Byte)))
    (expected_hash : Option String) (override_file : Bool) :
    Option (Except String Unit) :=
  if existing.isSome && !override_file then
    match expected_hash with
    | some expected =>
        match existing with
        | some (.error e) => some (.error e)
        | some (.ok c) => if verify_hash A c expected then some (.ok ()) else Option.none
        | Option.none => Option.none
    | Option.none => some (.ok ())
  else Option.none

/-- Model of download_to_file (src/http/mod.rs).  Follows the source's
order of effects: expand the path, evaluate the skip rule, create parent
directories, issue the GET, check the status, open the destination
(truncating it), select the hasher from the expected hash, stream the body
to disk and hasher, and finally compare digests when an expectation was
given. -/
def download_to_file (A : HashAlgs) (env : Env) (filepath : String)
    (expected_hash : Option String) (override_file : Bool) : DLOutcome :=
  let expandedPath := expand_home env.home filepath
  let existing := env.fs expandedPath
  match skipCheck A existing expected_hash override_file with
  | some r => ⟨r, 0, false, existing, expandedPath⟩
  | Option.none =>
    match env.mkdirOk with
    | .error e => ⟨.error e, 0, false, existing, expandedPath⟩
    | .ok () =>
      match env.response with
      | .error e => ⟨.error ("http error: " ++ e), 1, false, existing, expandedPath⟩
      | .ok resp =>
        if !statusIsSuccess resp.status then
          ⟨.error ("download failed: status code " ++ toString resp.status), 1, false,
            existing, expandedPath⟩
        else
          match env.createOk with
          | .error e => ⟨.error e, 1, false, existing, expandedPath⟩
          | .ok () =>
            match streamLoop resp.chunks (downloadSelect expected_hash) [] with
            | (.error e, written) => ⟨.error e, 1, true, some (.ok written), expandedPath⟩
            | (.ok h, written) =>
              match expected_hash with
              | some expected =>
                let actual := hexEncode (h.finalize A)
                if actual ≠ expected then
                  ⟨.error ("hash mismatch: got " ++ actual ++ ", want " ++ expected), 1, true,
                    some (.ok written), expandedPath⟩
                else ⟨.ok (), 1, true, some (.ok written), expandedPath⟩
              | Option.none => ⟨.ok (), 1, true, some (.ok written), expandedPath⟩

/-- The mapping the spec states in its data model section, written from the
spec's words for the refinement comparison: 40 selects SHA-1, 64 selects
SHA-256, 128 selects SHA-512, any other length or absence selects None. -/
def specLengthToAlgorithm : Option String → HasherEnum
  | some s =>
      if s.length = 40 then .sha1 []
      else if s.length = 64 then .sha256 []
      else if s.length = 128 then .sha512 []
      else .none
  | Option.none => .none

/-- A concrete digest bundle used to instantiate witnesses and
counterexamples: each algorithm returns an all-zero digest of its standard
output size (20, 32 and 64 bytes). -/
def A0 : HashAlgs :=
  ⟨fun _ => List.replicate 20 0, fun _ => List.replicate 32 0, fun _ => List.replicate 64 0⟩

/-- Content of the pre-existing destination file used by witnesses. -/
def fileA : List Byte := [104, 105]

/-- A 40-character expected string of zeros, the lowercase hex encoding of
the all-zero 20-byte digest A0 produces. -/
def zeros40 : String := String.mk (List.replicate 40 (Char.ofNat 48))

/-- Witness environment: destination f exists with content fileA, parent
creation and file creation succeed, the server answers 200 with one body
chunk. -/
def env1 : Env :=
  ⟨Option.none, fun p => if p = "f" then some (.ok fileA) else Option.none,
    .ok (), .ok (), .ok ⟨200, [Except.ok [97]]⟩⟩

/-- Witness environment for C10: destination f exists but reading it fails. -/
def env10 : Env :=
  ⟨Option.none, fun p => if p = "f" then some (.error "denied") else Option.none,
    .ok (), .ok (), .ok ⟨200, []⟩⟩

/-- Response used by the C4 witness: status 200 with one body chunk. -/
def resp2 : Response := ⟨200, [Except.ok [97]]⟩

/-- Witness environment for C4: no destination, all filesystem operations
succeed, the server answers with resp2. -/
def env2 : Env := ⟨Option.none, fun _ => Option.none, .ok (), .ok (), .ok resp2⟩

/-- Response used by the C5 witness: a 404 with no body. -/
def resp5 : Response := ⟨404, []⟩

/-- Witness environment for C5. -/
def env5 : Env := ⟨Option.none, fun _ => Option.none, .ok (), .ok (), .ok resp5⟩

/-- Environment for the C8 counterexample: home is /home/user, a readable
file exists at /home/user/f and nowhere else. -/
def envC8 : Env :=
  ⟨some "/home/user", fun p => if p = "/home/user/f" then some (.ok []) else Option.none,
    .ok (), .ok (), .error "unreachable"⟩

/-- A digest bundle whose outputs hex-encode with letters: every algorithm
returns a digest of 0xab bytes, so the lowercase encoding differs from its
uppercase form. -/
def A1 : HashAlgs :=
  ⟨fun _ => List.replicate 20 171, fun _ => List.replicate 32 171,
    fun _ => List.replicate 64 171⟩

/-- Response used by the C9 witness: status 200 with one body chunk. -/
def resp9 : Response := ⟨200, [Except.ok [97]]⟩

/-- Witness environment for C9: no destination, all filesystem operations
succeed, the server answers with resp9. -/
def env9 : Env := ⟨Option.none, fun _ => Option.none, .ok (), .ok (), .ok resp9⟩

lemma HasherEnum.update_nil (h : HasherEnum) : h.update [] = h := by
  cases h <;> simp [HasherEnum.update]

lemma HasherEnum.update_update (h : HasherEnum) (a b : List Byte) :
    (h.update a).update b = h.update (a ++ b) := by
  cases h <;> simp [HasherEnum.update]

lemma readLoop_eq_update : ∀ (n : Nat) (h : HasherEnum) (c : List Byte),
    c.length ≤ n → readLoop n h c = h.update c := by
  intro n
  induction n with
  | zero =>
      intro h c hc
      have hnil : c = [] := List.eq_nil_of_length_eq_zero (Nat.le_zero.mp hc)
      subst hnil
      simp [readLoop, HasherEnum.update_nil]
  | succ n ih =>
      intro h c hc
      by_cases hne : c.isEmpty
      · have hnil : c = [] := List.isEmpty_iff.mp hne
        subst hnil
        simp [readLoop, HasherEnum.update_nil]
      · have hpos : 0 < c.length := by
          cases c with
          | nil => simp at hne
          | cons a l => simp
        have hlen : (c.drop 8192).length ≤ n := by
          simp only [List.length_drop]
          omega
        rw [readLoop, if_neg hne, ih _ _ hlen, HasherEnum.update_update,
          List.take_append_drop]

lemma verify_hash_eq (A : HashAlgs) (content : List Byte) (expected : String) :
    verify_hash A content expected
      = (hexEncode (((verifySelect expected).update content).finalize A) == expected) := by
  rw [verify_hash, readLoop_eq_update _ _ _ (Nat.le_succ _)]

lemma verifySelect_of_unsupported (expected : String)
    (h40 : expected.length ≠ 40) (h64 : expected.length ≠ 64)
    (h128 : expected.length ≠ 128) : verifySelect expected = HasherEnum.none := by
  unfold verifySelect
  split
  · exact absurd (by assumption) h40
  · exact absurd (by assumption) h64
  · exact absurd (by assumption) h128
  · rfl

lemma streamLoop_map_ok : ∀ (bodies : List (List Byte)) (h : HasherEnum) (w : List Byte),
    streamLoop (bodies.map Except.ok) h w = (.ok (h.update bodies.flatten), w ++ bodies.flatten) := by
  intro bodies
  induction bodies with
  | nil => intro h w; simp [streamLoop, HasherEnum.update_nil]
  | cons b bs ih =>
      intro h w
      simp only [List.map_cons, streamLoop, ih, HasherEnum.update_update, List.flatten_cons,
        List.append_assoc]

lemma streamLoop_ok_elim : ∀ (chunks : List (Except String (List Byte)))
    (h h2 : HasherEnum) (w written : List Byte),
    streamLoop chunks h w = (.ok h2, written) →
    ∃ bodies : List (List Byte), chunks = bodies.map Except.ok
      ∧ written = w ++ bodies.flatten ∧ h2 = h.update bodies.flatten := by
  intro chunks
  induction chunks with
  | nil =>
      intro h h2 w written hs
      refine ⟨[], rfl, ?_, ?_⟩
      · simpa [streamLoop] using congrArg Prod.snd hs |>.symm
      · have := congrArg Prod.fst hs
        simp [streamLoop] at this
        simp [HasherEnum.update_nil, this]
  | cons c rest ih =>
      intro h h2 w written hs
      cases c with
      | error e => simp [streamLoop] at hs
      | ok b =>
          rcases ih (h.update b) h2 (w ++ b) written (by simpa [streamLoop] using hs)
            with ⟨bodies, hchunks, hw, hh⟩
          refine ⟨b :: bodies, by simp [hchunks], by simp [hw], ?_⟩
          rw [hh, HasherEnum.update_update, List.flatten_cons]

lemma verifySelect_40 (e : String) (h : e.length = 40) :
    verifySelect e = HasherEnum.sha1 [] := by
  unfold verifySelect
  rw [h]

lemma verifySelect_64 (e : String) (h : e.length = 64) :
    verifySelect e = HasherEnum.sha256 [] := by
  unfold verifySelect
  rw [h]

lemma verifySelect_128 (e : String) (h : e.length = 128) :
    verifySelect e = HasherEnum.sha512 [] := by
  unfold verifySelect
  rw [h]

/-- C2: for every readable file and every expected string whose length is
not 40, 64 or 128, verify_hash returns Ok(true) when the expected string is
empty and Ok(false) when it is non-empty, independently of the file's
content: the None accumulator finalizes to an empty byte sequence whose hex
encoding is the empty string. -/
theorem verify_hash_degenerate_length (A : HashAlgs) (content : List Byte)
    (expected : String) (h40 : expected.length ≠ 40) (h64 : expected.length ≠ 64)
    (h128 : expected.length ≠ 128) :
    (expected = "" → verify_hash A content expected = true)
  ∧ (expected ≠ "" → verify_hash A content expected = false) := by
  have key : verify_hash A content expected = ("" == expected) := by
    rw [verify_hash_eq, verifySelect_of_unsupported expected h40 h64 h128]
    simp [HasherEnum.update, HasherEnum.finalize, hexEncode]
  constructor
  · intro he
    subst he
    rw [key]
    rfl
  · intro he
    rw [key]
    exact beq_eq_false_iff_ne.mpr (Ne.symm he)

/-- Witness for C2 at a concrete file and two concrete unsupported-length
expected strings. -/
theorem verify_hash_degenerate_length_witness :
    verify_hash A0 [104] "" = true ∧ verify_hash A0 [104] "zz" = false :=
  ⟨(verify_hash_degenerate_length A0 [104] "" (by decide) (by decide) (by decide)).1 rfl,
   (verify_hash_degenerate_length A0 [104] "zz" (by decide) (by decide) (by decide)).2
     (by decide)⟩

/-- C3: for every readable file and every expected string of a supported
length (40, 64 or 128), verify_hash returns Ok(true) exactly when the
expected string equals the lowercase hex encoding of the corresponding
digest (SHA-1, SHA-256, SHA-512 respectively) of the file's full byte
content, and Ok(false) for every other string of that length. -/
theorem verify_hash_supported_lengths (A : HashAlgs) (content : List Byte)
    (expected : String) :
    (expected.length = 40 →
      (verify_hash A content expected = true ↔ expected = hexEncode (A.sha1 content)))
  ∧ (expected.length = 64 →
      (verify_hash A content expected = true ↔ expected = hexEncode (A.sha256 content)))
  ∧ (expected.length = 128 →
      (verify_hash A content expected = true ↔ expected = hexEncode (A.sha512 content))) := by
  refine ⟨fun hlen => ?_, fun hlen => ?_, fun hlen => ?_⟩
  · rw [verify_hash_eq, verifySelect_40 _ hlen,
      show ((HasherEnum.sha1 []).update content).finalize A = A.sha1 content from rfl,
      beq_iff_eq]
    exact eq_comm
  · rw [verify_hash_eq, verifySelect_64 _ hlen,
      show ((HasherEnum.sha256 []).update content).finalize A = A.sha256 content from rfl,
      beq_iff_eq]
    exact eq_comm
  · rw [verify_hash_eq, verifySelect_128 _ hlen,
      show ((HasherEnum.sha512 []).update content).finalize A = A.sha512 content from rfl,
      beq_iff_eq]
    exact eq_comm

/-- Witness for C3 at a concrete file and concrete expected strings of the
three supported lengths. -/
theorem verify_hash_supported_lengths_witness :
    (verify_hash A0 [] (String.mk (List.replicate 40 (Char.ofNat 48))) = true
      ↔ String.mk (List.replicate 40 (Char.ofNat 48)) = hexEncode (A0.sha1 []))
  ∧ (verify_hash A0 [] (String.mk (List.replicate 64 (Char.ofNat 48))) = true
      ↔ String.mk (List.replicate 64 (Char.ofNat 48)) = hexEncode (A0.sha256 []))
  ∧ (verify_hash A0 [] (String.mk (List.replicate 128 (Char.ofNat 48))) = true
      ↔ String.mk (List.replicate 128 (Char.ofNat 48)) = hexEncode (A0.sha512 [])) :=
  ⟨(verify_hash_supported_lengths A0 [] _).1 (by decide),
   (verify_hash_supported_lengths A0 [] _).2.1 (by decide),
   (verify_hash_supported_lengths A0 [] _).2.2 (by decide)⟩

/-- C6: the digest accumulator is a pure streaming fold: updating with any
partition of a byte sequence into successive chunks (of arbitrary,
non-uniform sizes) and then finalizing yields the same digest as a single
update with the whole sequence followed by finalize, for every variant and
every starting accumulator. -/
theorem hasher_streaming_fold (A : HashAlgs) (h : HasherEnum)
    (chunks : List (List Byte)) :
    (chunks.foldl HasherEnum.update h).finalize A
      = (h.update chunks.flatten).finalize A := by
  congr 1
  induction chunks generalizing h with
  | nil => simp [HasherEnum.update_nil]
  | cons c cs ih => simp [List.foldl_cons, ih, HasherEnum.update_update]

/-- C7: the length-to-algorithm mapping used by download_to_file when
preparing its streaming accumulator and the mapping used by verify_hash are
the same function, and both follow the spec's rule: length 40 selects
SHA-1, 64 selects SHA-256, 128 selects SHA-512, and any other length or an
absent string selects None. -/
theorem selection_consistency (o : Option String) :
    downloadSelect o
      = (match o with | some s => verifySelect s | Option.none => HasherEnum.none)
  ∧ downloadSelect o = specLengthToAlgorithm o := by
  cases o with
  | none => exact ⟨rfl, rfl⟩
  | some s =>
      have hv : verifySelect s
          = (if s.length = 40 then HasherEnum.sha1 []
             else if s.length = 64 then HasherEnum.sha256 []
             else if s.length = 128 then HasherEnum.sha512 []
             else HasherEnum.none) := by
        by_cases h40 : s.length = 40
        · rw [verifySelect_40 _ h40]
          simp [h40]
        · by_cases h64 : s.length = 64
          · rw [verifySelect_64 _ h64]
            simp [h40, h64]
          · by_cases h128 : s.length = 128
            · rw [verifySelect_128 _ h128]
              simp [h40, h64, h128]
            · rw [verifySelect_of_unsupported _ h40 h64 h128]
              simp [h40, h64, h128]
      exact ⟨by show downloadSelect (some s) = verifySelect s; rw [hv]; rfl, rfl⟩

lemma download_of_skip (A : HashAlgs) (env : Env) (filepath : String)
    (eh : Option String) (ov : Bool) (r : Except String Unit)
    (hskip : skipCheck A (env.fs (expand_home env.home filepath)) eh ov = some r) :
    download_to_file A env filepath eh ov
      = ⟨r, 0, false, env.fs (expand_home env.home filepath),
          expand_home env.home filepath⟩ := by
  simp only [download_to_file, hskip]

lemma download_pathUsed (A : HashAlgs) (env : Env) (filepath : String)
    (eh : Option String) (ov : Bool) :
    (download_to_file A env filepath eh ov).pathUsed = expand_home env.home filepath := by
  simp only [download_to_file]
  repeat first
  | rfl
  | split

lemma download_requests_one (A : HashAlgs) (env : Env) (filepath : String)
    (eh : Option String) (ov : Bool)
    (hskip : skipCheck A (env.fs (expand_home env.home filepath)) eh ov = Option.none)
    (hmk : env.mkdirOk = .ok ()) :
    (download_to_file A env filepath eh ov).requests = 1 := by
  simp only [download_to_file, hskip, hmk]
  repeat first
  | rfl
  | split

lemma download_status_error_eq (A : HashAlgs) (env : Env) (filepath : String)
    (eh : Option String) (ov : Bool) (resp : Response)
    (hskip : skipCheck A (env.fs (expand_home env.home filepath)) eh ov = Option.none)
    (hmk : env.mkdirOk = .ok ()) (hresp : env.response = .ok resp)
    (hst : statusIsSuccess resp.status = false) :
    download_to_file A env filepath eh ov
      = ⟨.error ("download failed: status code " ++ toString resp.status), 1, false,
          env.fs (expand_home env.home filepath), expand_home env.home filepath⟩ := by
  simp [download_to_file, hskip, hmk, hresp, hst]

lemma download_full_body (A : HashAlgs) (env : Env) (filepath : String)
    (eh : Option String) (ov : Bool) (resp : Response) (bodies : List (List Byte))
    (hskip : skipCheck A (env.fs (expand_home env.home filepath)) eh ov = Option.none)
    (hmk : env.mkdirOk = .ok ()) (hresp : env.response = .ok resp)
    (hst : statusIsSuccess resp.status = true) (hcr : env.createOk = .ok ())
    (hbody : resp.chunks = List.map Except.ok bodies) :
    download_to_file A env filepath eh ov
      = match eh with
        | some expected =>
            if hexEncode (((downloadSelect eh).update bodies.flatten).finalize A) ≠ expected then
              ⟨.error ("hash mismatch: got "
                  ++ hexEncode (((downloadSelect eh).update bodies.flatten).finalize A)
                  ++ ", want " ++ expected), 1, true, some (.ok bodies.flatten),
                expand_home env.home filepath⟩
            else ⟨.ok (), 1, true, some (.ok bodies.flatten), expand_home env.home filepath⟩
        | Option.none =>
            ⟨.ok (), 1, true, some (.ok bodies.flatten), expand_home env.home filepath⟩ := by
  simp only [download_to_file, hskip, hmk, hresp, hst, hcr, hbody, streamLoop_map_ok,
    Bool.not_true, List.nil_append, if_false]
  cases eh with
  | none => rfl
  | some expected => rfl

lemma download_success_content (A : HashAlgs) (env : Env) (filepath : String)
    (eh : Option String) (ov : Bool)
    (hskip : skipCheck A (env.fs (expand_home env.home filepath)) eh ov = Option.none)
    (hok : (download_to_file A env filepath eh ov).result = .ok ()) :
    ∃ resp bodies, env.response = .ok resp
      ∧ resp.chunks = List.map Except.ok bodies
      ∧ (download_to_file A env filepath eh ov).finalContent
          = some (.ok bodies.flatten) := by
  simp only [download_to_file, hskip] at hok ⊢
  cases hmk : env.mkdirOk with
  | error e => simp [hmk] at hok
  | ok u =>
      cases u
      simp only [hmk] at hok ⊢
      cases hr : env.response with
      | error e => simp [hr] at hok
      | ok resp =>
          simp only [hr] at hok ⊢
          cases hst : statusIsSuccess resp.status with
          | false => simp [hst] at hok
          | true =>
              simp only [hst, Bool.not_true, Bool.false_eq_true, if_false] at hok ⊢
              cases hc : env.createOk with
              | error e => simp [hc] at hok
              | ok u2 =>
                  cases u2
                  simp only [hc] at hok ⊢
                  rcases hsl : streamLoop resp.chunks (downloadSelect eh) [] with ⟨r, w⟩
                  cases r with
                  | error e =>
                      rw [hsl] at hok
                      simp at hok
                  | ok h2 =>
                      obtain ⟨bodies, hchunks, hw, hh⟩ := streamLoop_ok_elim _ _ _ _ _ hsl
                      refine ⟨resp, bodies, rfl, hchunks, ?_⟩
                      cases eh with
                      | none => simp [hw]
                      | some expected =>
                          by_cases hne : hexEncode (h2.finalize A) = expected <;>
                            simp [hne, hw]

lemma skipCheck_absent (A : HashAlgs) (fstate : Except String (List Byte)) :
    skipCheck A (some fstate) Option.none false = some (.ok ()) := by
  simp [skipCheck]

lemma skipCheck_verified (A : HashAlgs) (c : List Byte) (expected : String)
    (hv : verify_hash A c expected = true) :
    skipCheck A (some (.ok c)) (some expected) false = some (.ok ()) := by
  simp [skipCheck, hv]

lemma skipCheck_mismatch (A : HashAlgs) (c : List Byte) (expected : String)
    (hv : verify_hash A c expected = false) :
    skipCheck A (some (.ok c)) (some expected) false = Option.none := by
  simp [skipCheck, hv]

lemma skipCheck_read_error (A : HashAlgs) (e : String) (expected : String) :
    skipCheck A (some (.error e)) (some expected) false = some (.error e) := by
  simp [skipCheck]

/-- C1: skip rule of download_to_file with overwrite=false and an existing
destination: (1) with no expected hash the call succeeds with zero network
requests; (2) with an expected hash the existing file verifies against, it
succeeds with zero network requests; (3) with an expected hash the existing
file does not verify against, the call performs exactly one network request
(the mismatch is not itself an error) and on success the destination's new
content equals the server's response bytes. -/
theorem download_skip_rule (A : HashAlgs) (env : Env) (filepath : String) :
    (∀ fstate, env.fs (expand_home env.home filepath) = some fstate →
      (download_to_file A env filepath Option.none false).result = .ok ()
      ∧ (download_to_file A env filepath Option.none false).requests = 0)
  ∧ (∀ expected c, env.fs (expand_home env.home filepath) = some (.ok c) →
      verify_hash A c expected = true →
      (download_to_file A env filepath (some expected) false).result = .ok ()
      ∧ (download_to_file A env filepath (some expected) false).requests = 0)
  ∧ (∀ expected c, env.fs (expand_home env.home filepath) = some (.ok c) →
      verify_hash A c expected = false →
      env.mkdirOk = .ok () →
      (download_to_file A env filepath (some expected) false).requests = 1
      ∧ ((download_to_file A env filepath (some expected) false).result = .ok () →
          ∃ resp bodies, env.response = .ok resp
            ∧ resp.chunks = List.map Except.ok bodies
            ∧ (download_to_file A env filepath (some expected) false).finalContent
                = some (.ok bodies.flatten))) := by
  refine ⟨fun fstate hfs => ?_, fun expected c hfs hv => ?_, fun expected c hfs hv hmk => ?_⟩
  · have hskip : skipCheck A (env.fs (expand_home env.home filepath)) Option.none false
        = some (.ok ()) := by
      rw [hfs]
      exact skipCheck_absent A fstate
    rw [download_of_skip A env filepath Option.none false _ hskip]
    exact ⟨rfl, rfl⟩
  · have hskip : skipCheck A (env.fs (expand_home env.home filepath)) (some expected) false
        = some (.ok ()) := by
      rw [hfs]
      exact skipCheck_verified A c expected hv
    rw [download_of_skip A env filepath (some expected) false _ hskip]
    exact ⟨rfl, rfl⟩
  · have hskip : skipCheck A (env.fs (expand_home env.home filepath)) (some expected) false
        = Option.none := by
      rw [hfs]
      exact skipCheck_mismatch A c expected hv
    exact ⟨download_requests_one A env filepath (some expected) false hskip hmk,
      fun hok => download_success_content A env filepath (some expected) false hskip hok⟩

/-- C10: with overwrite=false, an existing destination and an expected
hash, an I/O failure of verify_hash on the existing file is returned
immediately: the error propagates, no network request is made, and the call
does not fall through to a refetch (the destination is untouched). -/
theorem skip_read_error_aborts (A : HashAlgs) (env : Env) (filepath : String)
    (expected : String) (e : String)
    (hfs : env.fs (expand_home env.home filepath) = some (.error e)) :
    download_to_file A env filepath (some expected) false
      = ⟨.error e, 0, false, some (.error e), expand_home env.home filepath⟩ := by
  have hskip : skipCheck A (env.fs (expand_home env.home filepath)) (some expected) false
      = some (.error e) := by
    rw [hfs]
    exact skipCheck_read_error A e expected
  rw [download_of_skip A env filepath (some expected) false _ hskip, hfs]

/-- C5: a GET answered with a non-success status makes download_to_file
fail with an error carrying the status code, without the destination file
being created or truncated: the status check precedes File::create, so the
destination keeps its prior state (only parent directories may have been
created). -/
theorem download_status_failure_atomic (A : HashAlgs) (env : Env) (filepath : String)
    (eh : Option String) (ov : Bool) (resp : Response)
    (hskip : skipCheck A (env.fs (expand_home env.home filepath)) eh ov = Option.none)
    (hmk : env.mkdirOk = .ok ()) (hresp : env.response = .ok resp)
    (hst : statusIsSuccess resp.status = false) :
    (download_to_file A env filepath eh ov).result
        = .error ("download failed: status code " ++ toString resp.status)
    ∧ (download_to_file A env filepath eh ov).fileCreated = false
    ∧ (download_to_file A env filepath eh ov).finalContent
        = env.fs (expand_home env.home filepath) := by
  rw [download_status_error_eq A env filepath eh ov resp hskip hmk hresp hst]
  exact ⟨rfl, rfl, rfl⟩

/-- C4: on the network path with the body fully consumed, a computed
digest differing from the present expected hash yields a failure whose
error carries both the computed and the expected hex strings; an equal
digest, or an absent expectation, yields success. -/
theorem download_mismatch_reporting (A : HashAlgs) (env : Env) (filepath : String)
    (eh : Option String) (ov : Bool) (resp : Response) (bodies : List (List Byte))
    (hskip : skipCheck A (env.fs (expand_home env.home filepath)) eh ov = Option.none)
    (hmk : env.mkdirOk = .ok ()) (hresp : env.response = .ok resp)
    (hst : statusIsSuccess resp.status = true) (hcr : env.createOk = .ok ())
    (hbody : resp.chunks = List.map Except.ok bodies) :
    (∀ expected, eh = some expected →
      (hexEncode (((downloadSelect eh).update bodies.flatten).finalize A) ≠ expected →
        (download_to_file A env filepath eh ov).result
          = .error ("hash mismatch: got "
              ++ hexEncode (((downloadSelect eh).update bodies.flatten).finalize A)
              ++ ", want " ++ expected))
      ∧ (hexEncode (((downloadSelect eh).update bodies.flatten).finalize A) = expected →
        (download_to_file A env filepath eh ov).result = .ok ()))
  ∧ (eh = Option.none → (download_to_file A env filepath eh ov).result = .ok ()) := by
  have hfull := download_full_body A env filepath eh ov resp bodies hskip hmk hresp hst hcr hbody
  constructor
  · rintro expected rfl
    refine ⟨fun hne => ?_, fun heq => ?_⟩
    · rw [hfull]
      simp [hne]
    · rw [hfull]
      simp [heq]
  · rintro rfl
    rw [hfull]

/-- Witness for C1 at the concrete environment env1, discharging all three
branches of the skip rule. -/
theorem download_skip_rule_witness :
    ((download_to_file A0 env1 "f" Option.none false).result = .ok ()
      ∧ (download_to_file A0 env1 "f" Option.none false).requests = 0)
  ∧ ((download_to_file A0 env1 "f" (some zeros40) false).result = .ok ()
      ∧ (download_to_file A0 env1 "f" (some zeros40) false).requests = 0)
  ∧ ((download_to_file A0 env1 "f" (some "x") false).requests = 1
      ∧ ((download_to_file A0 env1 "f" (some "x") false).result = .ok () →
          ∃ resp bodies, env1.response = .ok resp
            ∧ resp.chunks = List.map Except.ok bodies
            ∧ (download_to_file A0 env1 "f" (some "x") false).finalContent
                = some (.ok bodies.flatten))) :=
  ⟨(download_skip_rule A0 env1 "f").1 (.ok fileA) rfl,
   (download_skip_rule A0 env1 "f").2.1 zeros40 fileA rfl (by decide),
   (download_skip_rule A0 env1 "f").2.2 "x" fileA rfl (by decide) rfl⟩

/-- Witness for C10 at the concrete environment env10. -/
theorem skip_read_error_aborts_witness :
    download_to_file A0 env10 "f" (some "x") false
      = ⟨.error "denied", 0, false, some (.error "denied"),
          expand_home Option.none "f"⟩ :=
  skip_read_error_aborts A0 env10 "f" "x" "denied" rfl

/-- Witness for C4 at the concrete environment env2: mismatching, matching
and absent expected hashes. -/
theorem download_mismatch_reporting_witness :
    (download_to_file A0 env2 "f" (some "x") true).result
      = .error ("hash mismatch: got "
          ++ hexEncode (((downloadSelect (some "x")).update [[97]].flatten).finalize A0)
          ++ ", want " ++ "x")
  ∧ (download_to_file A0 env2 "f" (some "") true).result = .ok ()
  ∧ (download_to_file A0 env2 "f" Option.none true).result = .ok () :=
  ⟨((download_mismatch_reporting A0 env2 "f" (some "x") true resp2 [[97]]
      rfl rfl rfl (by decide) rfl rfl).1 "x" rfl).1 (by decide),
   ((download_mismatch_reporting A0 env2 "f" (some "") true resp2 [[97]]
      rfl rfl rfl (by decide) rfl rfl).1 "" rfl).2 (by decide),
   (download_mismatch_reporting A0 env2 "f" Option.none true resp2 [[97]]
      rfl rfl rfl (by decide) rfl rfl).2 rfl⟩

/-- Witness for C5 at the concrete environment env5. -/
theorem download_status_failure_atomic_witness :
    (download_to_file A0 env5 "f" Option.none true).result
        = .error ("download failed: status code " ++ toString resp5.status)
    ∧ (download_to_file A0 env5 "f" Option.none true).fileCreated = false
    ∧ (download_to_file A0 env5 "f" Option.none true).finalContent
        = env5.fs (expand_home env5.home "f") :=
  download_status_failure_atomic A0 env5 "f" Option.none true resp5
    rfl rfl rfl (by decide)

/-- C8 counterexample: called with the path string ~/f, download_to_file
does not use the string as supplied: it expands it to /home/user/f, finds
the file there, and skips — while no file exists at the literal path ~/f.
The core therefore performs tilde expansion of its own. -/
theorem tilde_expansion_counterexample :
    expand_home (some "/home/user") "~/f" ≠ "~/f"
  ∧ (download_to_file A0 envC8 "~/f" Option.none false).pathUsed = "/home/user/f"
  ∧ (download_to_file A0 envC8 "~/f" Option.none false).requests = 0
  ∧ (download_to_file A0 envC8 "~/f" Option.none false).result = .ok ()
  ∧ envC8.fs "~/f" = Option.none := by
  exact ⟨by decide, rfl, rfl, rfl, rfl⟩

/-- C8 (amended): download_to_file does apply expand_home to the supplied
destination path before checking existence, creating directories or
writing; only for a nonempty path that does not start with a tilde is the
path used exactly as supplied. -/
theorem download_uses_expanded_path (A : HashAlgs) (env : Env) (filepath : String)
    (eh : Option String) (ov : Bool) :
    (download_to_file A env filepath eh ov).pathUsed = expand_home env.home filepath
  ∧ (filepath ≠ "" → strStartsWith filepath "~" = false →
      (download_to_file A env filepath eh ov).pathUsed = filepath) := by
  refine ⟨download_pathUsed A env filepath eh ov, fun hne hns => ?_⟩
  rw [download_pathUsed A env filepath eh ov]
  simp [expand_home, hne, hns]

/-- Witness for the amended C8 at a concrete tilde-free path. -/
theorem download_uses_expanded_path_witness :
    (download_to_file A0 env1 "f" Option.none false).pathUsed = expand_home Option.none "f"
  ∧ (download_to_file A0 env1 "f" Option.none false).pathUsed = "f" :=
  ⟨(download_uses_expanded_path A0 env1 "f" Option.none false).1,
   (download_uses_expanded_path A0 env1 "f" Option.none false).2 (by decide) (by decide)⟩

/-- C9 counterexample: with an all-numeric digest (A0 digests hex-encode
to zeros only) the uppercase hex encoding of the file's true digest equals
the lowercase one, and verifying against it returns true, not false. -/
theorem uppercase_digest_counterexample :
    verify_hash A0 [] (strUpper (hexEncode (A0.sha1 []))) = true
  ∧ strUpper (hexEncode (A0.sha1 [])) = hexEncode (A0.sha1 []) :=
  ⟨by decide, by decide⟩

/-- C9 (amended): verify_hash compares the lowercase hex encoding of the
computed digest with the expected string by exact, case-sensitive string
equality, so any expected string that differs from that encoding — in
particular the uppercase hex encoding of the file's true digest whenever it
differs from the lowercase one — yields Ok(false); and the mismatch error
of download_to_file is decided by the same exact comparison against the
same lowercase encoding. -/
theorem digest_comparison_case_sensitive (A : HashAlgs) (content : List Byte)
    (expected : String) :
    (expected ≠ hexEncode (((verifySelect expected).update content).finalize A) →
        verify_hash A content expected = false)
  ∧ (expected = strUpper (hexEncode (A.sha1 content)) →
      expected.length = 40 →
      expected ≠ hexEncode (A.sha1 content) →
        verify_hash A content expected = false)
  ∧ (∀ env filepath ov resp bodies,
      skipCheck A (Env.fs env (expand_home (Env.home env) filepath)) (some expected) ov
        = Option.none →
      Env.mkdirOk env = .ok () → Env.response env = .ok resp →
      statusIsSuccess resp.status = true → Env.createOk env = .ok () →
      resp.chunks = List.map Except.ok bodies →
      expected ≠ hexEncode (((downloadSelect (some expected)).update bodies.flatten).finalize A) →
      (download_to_file A env filepath (some expected) ov).result
        = .error ("hash mismatch: got "
            ++ hexEncode (((downloadSelect (some expected)).update bodies.flatten).finalize A)
            ++ ", want " ++ expected)) := by
  have key : ∀ exp : String,
      exp ≠ hexEncode (((verifySelect exp).update content).finalize A) →
      verify_hash A content exp = false := by
    intro exp hne
    rw [verify_hash_eq]
    exact beq_eq_false_iff_ne.mpr (Ne.symm hne)
  refine ⟨key expected, fun hup h40 hne => ?_,
    fun env filepath ov resp bodies hskip hmk hresp hst hcr hbody hne => ?_⟩
  · refine key expected ?_
    rw [verifySelect_40 _ h40]
    exact hne
  · have hfull := download_full_body A env filepath (some expected) ov resp bodies
      hskip hmk hresp hst hcr hbody
    rw [hfull]
    simp [Ne.symm hne]

/-- Witness for the amended C9: with a digest whose hex encoding contains
letters, verifying against its uppercase form returns false, and a download
expecting the uppercase form fails with the mismatch error. -/
theorem digest_comparison_case_sensitive_witness :
    verify_hash A1 [] (strUpper (hexEncode (A1.sha1 []))) = false
  ∧ (download_to_file A1 env9 "f" (some (strUpper (hexEncode (A1.sha1 [])))) true).result
      = .error ("hash mismatch: got "
          ++ hexEncode (((downloadSelect (some (strUpper (hexEncode (A1.sha1 []))))).update
                [[97]].flatten).finalize A1)
          ++ ", want " ++ strUpper (hexEncode (A1.sha1 []))) :=
  ⟨(digest_comparison_case_sensitive A1 [] (strUpper (hexEncode (A1.sha1 [])))).2.1
      rfl (by decide) (by decide),
   (digest_comparison_case_sensitive A1 [] (strUpper (hexEncode (A1.sha1 [])))).2.2
      env9 "f" true resp9 [[97]] rfl rfl rfl (by decide) rfl rfl (by decide)⟩
